import Mathlib

/-!
Verification of the address-tethered ABI resolution cache
(`gnomon/utils/abi_resolver.py`): address normalization, two-tier caching
(process memory + on-disk files), Etherscan proxy detection, the
fetch-once guard, the metadata sidecar, and the rolling-window rate
limiter.

The Python module is shallowly embedded: JSON values are an inductive
type, the process-global caches and the cache directory are fields of an
explicit state record, the HTTP client (`requests.get`), the JSON parser
used on the remote descriptor string (`json.loads`), the SHA-256 digest
and the wall clock are supplied by an environment record, and every
function that can raise returns `Except`.  Exceptions raised after a
side effect keep the state mutated so far, exactly as in Python.
-/

/-- JSON values as produced by `json.load` / `response.json()`.  Numbers
are modelled as integers (the payloads this module touches carry no
fractional numbers). -/
inductive Json where
  | null : Json
  | bool (b : Bool) : Json
  | num (n : Int) : Json
  | str (s : String) : Json
  | arr (xs : List Json) : Json
  | obj (fields : List (String × Json)) : Json

/-- Python truthiness of a JSON value (`if not x`): `None`, `False`, `0`,
`""`, `[]` and an empty mapping are falsy. -/
def Json.isFalsy : Json → Bool
  | .null => true
  | .bool b => !b
  | .num n => n == 0
  | .str s => s == ""
  | .arr xs => xs.isEmpty
  | .obj fs => fs.isEmpty

/-- First-match association-list lookup; models both `dict.get` (Python
dictionaries have unique keys) and the file system map. -/
def assocFind {α β : Type} [DecidableEq α] (l : List (α × β)) (k : α) : Option β :=
  match l with
  | [] => none
  | (k', v) :: rest => if k' = k then some v else assocFind rest k

/-- Whitespace as stripped by `str.strip` (restricted to the ASCII
whitespace that can actually occur in the addresses this module sees). -/
def isWsChar (c : Char) : Bool :=
  c == ' ' || c == '\t' || c == '\n' || c == '\r'

/-- Drop leading and trailing whitespace from a character list. -/
def stripL (l : List Char) : List Char :=
  ((l.dropWhile isWsChar).reverse.dropWhile isWsChar).reverse

/-- `str.strip`: drop leading and trailing whitespace. -/
def pyStrip (s : String) : String :=
  String.mk (stripL s.data)

/-- ASCII `str.lower` on one character (`A`–`Z` is code points 65–90). -/
def lowerChar (c : Char) : Char :=
  if 65 ≤ c.toNat ∧ c.toNat ≤ 90 then Char.ofNat (c.toNat + 32) else c

/-- `str.lower` (the addresses this module sees are ASCII). -/
def pyLower (s : String) : String :=
  String.mk (s.data.map lowerChar)

/-- `str.startswith`. -/
def pyStartsWith (s pre : String) : Bool :=
  pre.data.isPrefixOf s.data

/-- String escaping inside `json.dumps` output (kept to the two escapes
the digest claims can exercise; determinism is all that matters). -/
def escChar (c : Char) : String :=
  if c = '\\' then "\\\\" else if c = '\"' then "\\\"" else String.singleton c

/-- A JSON string literal as serialized by `json.dumps`. -/
def jsonQuote (s : String) : String :=
  "\"" ++ String.join (s.data.map escChar) ++ "\""

/-- Stable insertion into a key-sorted list of serialized object fields. -/
def insertField (p : String × String) : List (String × String) → List (String × String)
  | [] => [p]
  | q :: rest => if p.1 ≤ q.1 then p :: q :: rest else q :: insertField p rest

/-- Key-sort of serialized object fields (`json.dumps(..., sort_keys=True)`). -/
def sortFieldStrings : List (String × String) → List (String × String)
  | [] => []
  | p :: rest => insertField p (sortFieldStrings rest)

mutual
/-- `json.dumps(x, sort_keys=True, separators=(",", ":"))`: the canonical
whitespace-free, key-sorted serialization used for the content digest. -/
def canonicalJson : Json → String
  | .null => "null"
  | .bool b => if b then "true" else "false"
  | .num n => toString n
  | .str s => jsonQuote s
  | .arr xs => "[" ++ String.intercalate "," (canonicalList xs) ++ "]"
  | .obj fs =>
      "\x7b" ++
        String.intercalate ","
          ((sortFieldStrings (canonicalFields fs)).map
            (fun p => jsonQuote p.1 ++ ":" ++ p.2)) ++
      "\x7d"

def canonicalList : List Json → List String
  | [] => []
  | j :: rest => canonicalJson j :: canonicalList rest

def canonicalFields : List (String × Json) → List (String × String)
  | [] => []
  | (k, v) :: rest => (k, canonicalJson v) :: canonicalFields rest
end

/-! ## Constants and error taxonomy -/

/-- `ZERO_ADDRESS` from the module header. -/
def ZERO_ADDRESS : String := "0x0000000000000000000000000000000000000000"

/-- The root of the address-keyed cache: `abi/address`. -/
def ADDRESS_ABI_ROOT : String := "abi/address"

/-- The spec's error taxonomy (§7), one constructor per raise site of the
Python module.  `fileNotFound` is the `FileNotFoundError` of `open`, and
`typeError` the `AttributeError` raised when `.strip()` is called on a
truthy non-string `Implementation` field. -/
inductive Err where
  | invalidAddress (normalized : String)
  | repeatedFetchAttempt (chainId : Nat) (address : String)
  | missingCredential
  | remoteRequestFailed
  | remoteProtocolError (message : String)
  | invalidAbiPayload (address : String)
  | emptyDescriptor (address : String)
  | unexpectedPayloadFormat (path : String)
  | fileNotFound (path : String)
  | typeError
deriving DecidableEq

/-- One outbound Etherscan request: the query parameters of the
`requests.get` call in `_etherscan_request` (`module=contract` is fixed
and omitted). -/
structure RemoteCall where
  action : String
  chainId : Nat
  address : String
  apiKey : String
deriving DecidableEq

/-- The ambient collaborators of the module: the `ETHERSCAN_API_KEY`
environment variable, the HTTP transport (`requests.get` followed by
`raise_for_status`/`response.json()`, so a call either fails at the
transport level or yields the response object's fields), the JSON parser
applied to the `getabi` result string (`json.loads`), the SHA-256 hex
digest (`hashlib.sha256(...).hexdigest()`), and the current UTC
timestamp string (`datetime.now(timezone.utc).isoformat()`). -/
structure Env where
  apiKeyVar : Option String
  remote : RemoteCall → Except Unit (List (String × Json))
  jsonLoads : String → Option Json
  sha256hex : String → String
  nowIso : String

/-- A (chainId, normalized address) cache key. -/
abbrev CacheKey := Nat × String

/-- The mutable process state: the three module-level caches, the cache
directory contents (path ↦ parsed JSON content; `json.dump` followed by
`json.load` round-trips, so files are stored in parsed form), and the
log of Etherscan requests issued so far (most recent first). -/
structure St where
  fileCache : List (CacheKey × String)
  abiCache : List (CacheKey × Json)
  fetchOnce : List CacheKey
  fs : List (String × Json)
  calls : List RemoteCall

/-! ## The embedded resolver functions -/

/-- `_normalize_address`: strip, lowercase, require the `0x` prefix. -/
def _normalize_address (address : String) : Except Err String :=
  let a := pyLower (pyStrip address)
  if pyStartsWith a "0x" then .ok a else .error (.invalidAddress a)

/-- The path string `abi/address/{chainId}/{a}.json`. -/
def addressAbiPathStr (chainId : Nat) (a : String) : String :=
  ADDRESS_ABI_ROOT ++ "/" ++ toString chainId ++ "/" ++ a ++ ".json"

/-- The path string `abi/address/{chainId}/{a}.meta.json`. -/
def addressMetaPathStr (chainId : Nat) (a : String) : String :=
  ADDRESS_ABI_ROOT ++ "/" ++ toString chainId ++ "/" ++ a ++ ".meta.json"

/-- `_address_abi_path`: `abi/address/{chainId}/{normalized}.json`. -/
def _address_abi_path (chainId : Nat) (address : String) : Except Err String :=
  (_normalize_address address).map (fun a => addressAbiPathStr chainId a)

/-- `_address_meta_path`: `abi/address/{chainId}/{normalized}.meta.json`. -/
def _address_meta_path (chainId : Nat) (address : String) : Except Err String :=
  (_normalize_address address).map (fun a => addressMetaPathStr chainId a)

/-- `_read_abi_file`: accept a bare JSON array (wrapped as
`{"abi": ...}`) or an object that already has an `"abi"` key; reject any
other shape. -/
def _read_abi_file (path : String) (st : St) : Except Err Json × St :=
  match assocFind st.fs path with
  | none => (.error (.fileNotFound path), st)
  | some parsed =>
    match parsed with
    | .arr xs => (.ok (.obj [("abi", .arr xs)]), st)
    | .obj fields =>
        if (assocFind fields "abi").isSome then (.ok (.obj fields), st)
        else (.error (.unexpectedPayloadFormat path), st)
    | _ => (.error (.unexpectedPayloadFormat path), st)

/-- A Python `str | None` value as stored in JSON metadata. -/
def optStrJson : Option String → Json
  | some s => .str s
  | none => .null

/-- `implementation if implementation else None` inside the metadata
dictionary of `_write_address_cache`: a falsy (empty) implementation
string becomes `None`, a truthy one is normalized (which can raise). -/
def normalizeOptImpl (implementation : Option String) : Except Err (Option String) :=
  match implementation with
  | none => .ok none
  | some impl =>
      if impl = "" then .ok none
      else (_normalize_address impl).map some

/-- The metadata dictionary built by `_write_address_cache` (lines
101–111), with the two `_normalize_address` calls already performed. -/
def cacheMetadataFields (env : Env) (chainId : Nat) (normOrig normTarget : String)
    (isProxy : Bool) (implNorm abiNameHint : Option String) (source : String)
    (abiJsonCanonical : String) : List (String × Json) :=
  [("chainId", .num chainId),
   ("address", .str normOrig),
   ("abiTargetAddress", .str normTarget),
   ("isProxy", .bool isProxy),
   ("implementation", optStrJson implNorm),
   ("abiNameHint", optStrJson abiNameHint),
   ("source", .str source),
   ("fetchedAt", .str env.nowIso),
   ("abiSha256", .str (env.sha256hex abiJsonCanonical))]

/-- The same dictionary as a JSON object. -/
def cacheMetadata (env : Env) (chainId : Nat) (normOrig normTarget : String)
    (isProxy : Bool) (implNorm abiNameHint : Option String) (source : String)
    (abiJsonCanonical : String) : Json :=
  Json.obj (cacheMetadataFields env chainId normOrig normTarget isProxy implNorm
    abiNameHint source abiJsonCanonical)

/-- `_write_address_cache`: write the ABI payload file, then build and
write the metadata sidecar.  The canonical serialization of the payload
is computed for the digest only; the payload file itself holds the same
value (Python writes it with `indent=2`, which parses back to the same
JSON value).  A failure of one of the later `_normalize_address` calls
leaves the already-written payload file on disk, as in Python. -/
def _write_address_cache (env : Env) (chainId : Nat) (originalAddress : String)
    (abiPayload : Json) (abiTargetAddress : String) (isProxy : Bool)
    (implementation : Option String) (abiNameHint : Option String)
    (source : String) (st : St) : Except Err String × St :=
  match _address_abi_path chainId originalAddress with
  | .error e => (.error e, st)
  | .ok abiPath =>
  match _address_meta_path chainId originalAddress with
  | .error e => (.error e, st)
  | .ok metaPath =>
  let abiJsonCanonical := canonicalJson abiPayload
  let st1 : St := { st with fs := (abiPath, abiPayload) :: st.fs }
  match _normalize_address originalAddress with
  | .error e => (.error e, st1)
  | .ok normOrig =>
  match _normalize_address abiTargetAddress with
  | .error e => (.error e, st1)
  | .ok normTarget =>
  match normalizeOptImpl implementation with
  | .error e => (.error e, st1)
  | .ok implNorm =>
  let metadata := cacheMetadata env chainId normOrig normTarget isProxy
    implNorm abiNameHint source abiJsonCanonical
  (.ok abiPath, { st1 with fs := (metaPath, metadata) :: st1.fs })

/-- `_etherscan_request`: rate-limiter acquisition (a pure timing
effect, modelled separately below), then a GET with the normalized
address.  The request is recorded in the call log as soon as it is
issued, whether or not the transport succeeds. -/
def _etherscan_request (env : Env) (action : String) (chainId : Nat)
    (address : String) (apiKey : String) (st : St) :
    Except Err (List (String × Json)) × St :=
  match _normalize_address address with
  | .error e => (.error e, st)
  | .ok addr =>
    let call : RemoteCall := ⟨action, chainId, addr, apiKey⟩
    let st1 : St := { st with calls := call :: st.calls }
    match env.remote call with
    | .error _ => (.error .remoteRequestFailed, st1)
    | .ok payload => (.ok payload, st1)

/-- `str(x)` as applied to the `status` field (only its comparison with
`"1"` matters; the placeholder for sequences/mappings stands for the
Python `repr`, which can never equal `"1"`). -/
def pyStr : Json → String
  | .str s => s
  | .num n => toString n
  | .bool true => "True"
  | .bool false => "False"
  | .null => "None"
  | .arr _ => "<sequence>"
  | .obj _ => "<mapping>"

/-- `abi_data.get("result") or abi_data.get("message") or "Unknown
Etherscan error"`: the first truthy value, rendered as a string. -/
def etherscanErrMsg (abiData : List (String × Json)) : String :=
  match assocFind abiData "result" with
  | some v =>
      if v.isFalsy then
        match assocFind abiData "message" with
        | some w => if w.isFalsy then "Unknown Etherscan error" else pyStr w
        | none => "Unknown Etherscan error"
      else pyStr v
  | none =>
      match assocFind abiData "message" with
      | some w => if w.isFalsy then "Unknown Etherscan error" else pyStr w
      | none => "Unknown Etherscan error"

/-- Lines 152–158: `implementation = (source_result[0].get("Implementation")
or "").strip()` guarded by `isinstance(source_result, list) and
source_result`.  `none` means the Python variable stayed `None`. -/
def extractImplementation (sourceResult : Option Json) : Except Err (Option String) :=
  match sourceResult with
  | some (.arr (first :: _)) =>
    match first with
    | .obj fields =>
      match assocFind fields "Implementation" with
      | none => .ok (some "")
      | some v =>
          if v.isFalsy then .ok (some "")
          else
            match v with
            | .str s => .ok (some (pyStrip s))
            | _ => .error .typeError
    | _ => .error .typeError
  | _ => .ok none

/-- `if implementation and implementation.lower() != ZERO_ADDRESS`. -/
def proxyFlag (implementation : Option String) : Bool :=
  match implementation with
  | some s => s ≠ "" && pyLower s ≠ ZERO_ADDRESS
  | none => false

/-- The body of `_resolve_via_etherscan` after the fetch-once guard has
let the key through and marked it: credential lookup, the `getsourcecode`
call, proxy detection, the `getabi` call, parsing, and the cache write.
The proxy branch re-normalizes the target for its log line, which can
raise before the `getabi` request, as in Python. -/
def _resolve_fetch (env : Env) (chainId : Nat) (originalAddress : String)
    (abiNameHint : Option String) (st : St) : Except Err String × St :=
  match env.apiKeyVar with
  | none => (.error .missingCredential, st)
  | some apiKey =>
  if apiKey = "" then (.error .missingCredential, st)
  else
  match _etherscan_request env "getsourcecode" chainId originalAddress apiKey st with
  | (.error e, st1) => (.error e, st1)
  | (.ok sourceData, st1) =>
  match extractImplementation (assocFind sourceData "result") with
  | .error e => (.error e, st1)
  | .ok implementation =>
  let isProxy := proxyFlag implementation
  let abiTarget := if isProxy then implementation.getD "" else originalAddress
  match (if isProxy then (_normalize_address abiTarget).map (fun _ => ()) else .ok ()) with
  | .error e => (.error e, st1)
  | .ok _ =>
  match _etherscan_request env "getabi" chainId abiTarget apiKey st1 with
  | (.error e, st2) => (.error e, st2)
  | (.ok abiData, st2) =>
  let status := match assocFind abiData "status" with | some v => pyStr v | none => ""
  match assocFind abiData "result" with
  | some (Json.str resultStr) =>
      if status = "1" then
        match env.jsonLoads resultStr with
        | none => (.error (.invalidAbiPayload originalAddress), st2)
        | some abi =>
          if abi.isFalsy then (.error (.emptyDescriptor originalAddress), st2)
          else
            _write_address_cache env chainId originalAddress (Json.obj [("abi", abi)])
              abiTarget isProxy implementation abiNameHint "etherscan" st2
      else (.error (.remoteProtocolError (etherscanErrMsg abiData)), st2)
  | _ => (.error (.remoteProtocolError (etherscanErrMsg abiData)), st2)

/-- `_resolve_via_etherscan`: the fetch-once guard (lines 138–143)
wrapped around `_resolve_fetch`.  The key is recorded in the
fetch-attempted set before anything else happens. -/
def _resolve_via_etherscan (env : Env) (chainId : Nat) (originalAddress : String)
    (abiNameHint : Option String) (st : St) : Except Err String × St :=
  match _normalize_address originalAddress with
  | .error e => (.error e, st)
  | .ok norm =>
  if (chainId, norm) ∈ st.fetchOnce then
    (.error (.repeatedFetchAttempt chainId originalAddress), st)
  else
    _resolve_fetch env chainId originalAddress abiNameHint
      { st with fetchOnce := (chainId, norm) :: st.fetchOnce }

/-- The two legacy name-hint candidates: `abi/{hint}.json` and
`abi/_{hint}.json`. -/
def nameHintCandidates (hint : String) : List String :=
  ["abi/" ++ hint ++ ".json", "abi/_" ++ hint ++ ".json"]

/-- The `for candidate in (...)` loop of `resolve_abi_file_for_address`:
the first existing candidate is read, copied into an address-keyed cache
entry tagged `name-cache`, registered in both memory caches and
returned; `none` means no candidate existed and control falls through to
the Etherscan path. -/
def tryNameHint (env : Env) (chainId : Nat) (normalized : String) (hint : String)
    (st : St) : List String → Option (Except Err String × St)
  | [] => none
  | candidate :: rest =>
    if (assocFind st.fs candidate).isSome then
      some (
        match _read_abi_file candidate st with
        | (.error e, st') => (.error e, st')
        | (.ok payload, st') =>
          match _write_address_cache env chainId normalized payload normalized
              false none (some hint) "name-cache" st' with
          | (.error e, st'') => (.error e, st'')
          | (.ok cachePath, st'') =>
            (.ok cachePath,
              { st'' with
                fileCache := ((chainId, normalized), cachePath) :: st''.fileCache,
                abiCache := ((chainId, normalized), payload) :: st''.abiCache }))
    else tryNameHint env chainId normalized hint st rest

/-- The `if abi_name_hint:` gate around the candidate loop (a falsy —
missing or empty — hint skips the loop). -/
def nameHintStep (env : Env) (chainId : Nat) (normalized : String)
    (abiNameHint : Option String) (st : St) : Option (Except Err String × St) :=
  match abiNameHint with
  | some hint =>
      if hint = "" then none
      else tryNameHint env chainId normalized hint st (nameHintCandidates hint)
  | none => none

/-- `resolve_abi_file_for_address`: memory file-path cache, then on-disk
address-keyed file, then the legacy name-hint candidates (only when the
hint is truthy), then the guarded Etherscan fetch. -/
def resolve_abi_file_for_address (env : Env) (chainId : Nat) (address : String)
    (abiNameHint : Option String) (st : St) : Except Err String × St :=
  match _normalize_address address with
  | .error e => (.error e, st)
  | .ok normalized =>
  match assocFind st.fileCache (chainId, normalized) with
  | some p => (.ok p, st)
  | none =>
  match _address_abi_path chainId normalized with
  | .error e => (.error e, st)
  | .ok addressPath =>
  if (assocFind st.fs addressPath).isSome then
    (.ok addressPath,
      { st with fileCache := ((chainId, normalized), addressPath) :: st.fileCache })
  else
  match nameHintStep env chainId normalized abiNameHint st with
  | some result => result
  | none =>
    match _resolve_via_etherscan env chainId normalized abiNameHint st with
    | (.error e, st1) => (.error e, st1)
    | (.ok abiPath, st1) =>
        (.ok abiPath,
          { st1 with fileCache := ((chainId, normalized), abiPath) :: st1.fileCache })

/-- `resolve_abi_by_address`: descriptor-level memory cache first, then
the file-level resolution followed by a read of the resulting file. -/
def resolve_abi_by_address (env : Env) (chainId : Nat) (address : String)
    (abiNameHint : Option String) (st : St) : Except Err Json × St :=
  match _normalize_address address with
  | .error e => (.error e, st)
  | .ok normalized =>
  match assocFind st.abiCache (chainId, normalized) with
  | some payload => (.ok payload, st)
  | none =>
  match resolve_abi_file_for_address env chainId normalized abiNameHint st with
  | (.error e, st1) => (.error e, st1)
  | (.ok abiFile, st1) =>
    match _read_abi_file abiFile st1 with
    | (.error e, st2) => (.error e, st2)
    | (.ok payload, st2) =>
        (.ok payload,
          { st2 with abiCache := ((chainId, normalized), payload) :: st2.abiCache })

/-! ## The rate limiter (`_RateLimiter`)

`acquire` loops: under the lock it reads `time.monotonic()`, pops
expired timestamps from the front of the deque, and either registers a
new timestamp and returns, or computes how long to sleep until the
oldest timestamp exits the window and retries the whole check.  Because
every check-and-register runs under one lock and `time.monotonic` is
monotone, any concurrent execution is equivalent to a serialized
sequence of lock-held checks at nondecreasing times; a blocked caller's
retry after sleeping is simply a later check in that sequence.  Times
are modelled as rationals. -/

structure RateLimiterCfg where
  max_calls : Nat
  period_seconds : ℚ

/-- The `while self._calls and now - self._calls[0] >= self.period_seconds:
self._calls.popleft()` loop. -/
def pruneCalls (cfg : RateLimiterCfg) (now : ℚ) : List ℚ → List ℚ
  | [] => []
  | c :: rest =>
      if cfg.period_seconds ≤ now - c then pruneCalls cfg now rest else c :: rest

/-- Result of one lock-held iteration of `acquire`. -/
structure AcquireStep where
  granted : Bool
  callsAfter : List ℚ
  sleep_for : ℚ

/-- One lock-held iteration of `acquire` at time `now`: prune, then
either register `now` (granted) or report the sleep duration
`period_seconds - (now - self._calls[0])`.  (`headD 0` models
`self._calls[0]`; with `max_calls > 0` a failed check always has a
nonempty pruned deque.) -/
def acquireCheck (cfg : RateLimiterCfg) (now : ℚ) (calls : List ℚ) : AcquireStep :=
  let pruned := pruneCalls cfg now calls
  if pruned.length < cfg.max_calls then
    ⟨true, pruned ++ [now], 0⟩
  else
    ⟨false, pruned, cfg.period_seconds - (now - pruned.headD 0)⟩

/-- Serialized trace semantics: run a sequence of lock-held check
attempts (each attempt is one loop iteration of some caller's
`acquire`), returning the times at which calls were granted and the
final deque. -/
def runAttempts (cfg : RateLimiterCfg) : List ℚ → List ℚ → List ℚ × List ℚ
  | [], calls => ([], calls)
  | t :: rest, calls =>
      let step := acquireCheck cfg t calls
      let tail := runAttempts cfg rest step.callsAfter
      (if step.granted then t :: tail.1 else tail.1, tail.2)

/-- Membership of a grant time in the rolling window `(u, u + T]`. -/
def inWindow (cfg : RateLimiterCfg) (u s : ℚ) : Bool :=
  decide (u < s ∧ s ≤ u + cfg.period_seconds)

/-- A payload object carrying the descriptor field: the shape of every
value `_read_abi_file` can return and of everything the resolver stores
in the descriptor memory cache. -/
def wellformedPayload (j : Json) : Bool :=
  match j with
  | .obj fields => (assocFind fields "abi").isSome
  | _ => false

/-- The two file shapes `_read_abi_file` accepts: a bare sequence or an
object carrying the descriptor field. -/
def wellformedAbiFile (j : Json) : Bool :=
  match j with
  | .arr _ => true
  | .obj fields => (assocFind fields "abi").isSome
  | _ => false

/-- Every entry of the descriptor memory cache is an object with an
`"abi"` field. -/
def abiCacheWellformed (st : St) : Prop :=
  ∀ k j, assocFind st.abiCache k = some j → wellformedPayload j = true

/-- The `source` field of the metadata sidecar written for a key, when
present and well-shaped. -/
def metaSourceField (st : St) (chainId : Nat) (norm : String) : Option Json :=
  match assocFind st.fs (addressMetaPathStr chainId norm) with
  | some (.obj metaFields) => assocFind metaFields "source"
  | _ => none

/-- Test fixture: a deterministic remote answering `getsourcecode` with
an empty implementation (no proxy) and `getabi` with a one-entry
descriptor string. -/
def fixtureRemote (c : RemoteCall) : Except Unit (List (String × Json)) :=
  if c.action = "getsourcecode" then
    .ok [("status", .str "1"), ("message", .str "OK"),
         ("result", .arr [Json.obj [("Implementation", .str "")]])]
  else
    .ok [("status", .str "1"), ("message", .str "OK"),
         ("result", .str "descriptor")]

/-- Test fixture: a deterministic remote whose `getsourcecode` answer
carries the implementation address `0xbbbb` (a proxy). -/
def fixtureProxyRemote (c : RemoteCall) : Except Unit (List (String × Json)) :=
  if c.action = "getsourcecode" then
    .ok [("status", .str "1"), ("message", .str "OK"),
         ("result", .arr [Json.obj [("Implementation", .str "0xbbbb")]])]
  else
    .ok [("status", .str "1"), ("message", .str "OK"),
         ("result", .str "descriptor")]

/-- Test fixture: the parser recognises only the string `"descriptor"`. -/
def fixtureLoads (s : String) : Option Json :=
  if s = "descriptor" then some (.arr [Json.obj [("type", .str "function")]])
  else none

/-- Test fixture environment around `fixtureRemote`. -/
def fixtureEnv : Env :=
  ⟨some "test-key", fixtureRemote, fixtureLoads,
    fun s => s ++ "#sha256", "2026-01-01T00:00:00+00:00"⟩

/-- Test fixture environment around `fixtureProxyRemote`. -/
def fixtureProxyEnv : Env :=
  ⟨some "test-key", fixtureProxyRemote, fixtureLoads,
    fun s => s ++ "#sha256", "2026-01-01T00:00:00+00:00"⟩

/-- The empty process state: fresh caches, empty cache directory. -/
def emptySt : St := ⟨[], [], [], [], []⟩

/-- Test fixture environment with no configured API key. -/
def fixtureNoKeyEnv : Env :=
  ⟨none, fixtureRemote, fixtureLoads, fun s => s ++ "#sha256",
    "2026-01-01T00:00:00+00:00"⟩

/-! ## String lemmas: `strip`/`lower` interaction and normalization
idempotence -/

theorem char_eq_iff_toNat (a b : Char) : a = b ↔ a.toNat = b.toNat :=
  ⟨fun h => h ▸ rfl, fun h => by rw [← Char.ofNat_toNat a, h, Char.ofNat_toNat]⟩

theorem toNat_ofNat_valid (n : Nat) (h : n < 55296) : (Char.ofNat n).toNat = n := by
  unfold Char.ofNat
  rw [dif_pos (Or.inl h)]
  simp [Char.ofNatAux, Char.toNat, UInt32.toNat]

theorem toNat_lowerChar_upper (c : Char) (h : 65 ≤ c.toNat ∧ c.toNat ≤ 90) :
    (lowerChar c).toNat = c.toNat + 32 := by
  rw [lowerChar, if_pos h, toNat_ofNat_valid]
  omega

theorem lowerChar_eq_self (c : Char) (h : ¬(65 ≤ c.toNat ∧ c.toNat ≤ 90)) :
    lowerChar c = c := by
  rw [lowerChar, if_neg h]

theorem lowerChar_idem (c : Char) : lowerChar (lowerChar c) = lowerChar c := by
  by_cases h : 65 ≤ c.toNat ∧ c.toNat ≤ 90
  · apply lowerChar_eq_self
    rw [toNat_lowerChar_upper c h]
    omega
  · rw [lowerChar_eq_self c h, lowerChar_eq_self c h]

theorem isWsChar_eq_false (x : Char) (h : 33 ≤ x.toNat) : isWsChar x = false := by
  simp only [isWsChar, Bool.or_eq_false_iff, beq_eq_false_iff_ne, ne_eq]
  refine ⟨⟨⟨?_, ?_⟩, ?_⟩, ?_⟩ <;>
    · intro he
      rw [char_eq_iff_toNat] at he
      rw [he] at h
      exact absurd h (by decide)

theorem isWsChar_lowerChar (c : Char) : isWsChar (lowerChar c) = isWsChar c := by
  by_cases h : 65 ≤ c.toNat ∧ c.toNat ≤ 90
  · rw [isWsChar_eq_false c (by omega),
      isWsChar_eq_false (lowerChar c) (by rw [toNat_lowerChar_upper c h]; omega)]
  · rw [lowerChar_eq_self c h]

theorem head?_dropWhile_false {α : Type} (p : α → Bool) (l : List α) :
    ∀ x, (l.dropWhile p).head? = some x → p x = false := by
  intro x hx
  have h := List.head?_dropWhile_not p l
  rw [hx] at h
  exact h

theorem dropWhile_eq_self_of_head? {α : Type} (p : α → Bool) (l : List α)
    (h : ∀ x, l.head? = some x → p x = false) : l.dropWhile p = l := by
  cases l with
  | nil => rfl
  | cons a t => simp [List.dropWhile_cons, h a rfl]

theorem getLast?_dropWhile {α : Type} (p : α → Bool) (l : List α)
    (h : ∀ x, l.getLast? = some x → p x = false) :
    (l.dropWhile p).getLast? = l.getLast? := by
  induction l with
  | nil => rfl
  | cons a t ih =>
    cases t with
    | nil => simp [List.dropWhile_cons, h a rfl]
    | cons b u =>
      by_cases hp : p a
      · rw [List.dropWhile_cons_of_pos hp, List.getLast?_cons_cons,
          ih (fun x hx => h x (by rw [List.getLast?_cons_cons]; exact hx))]
      · rw [List.dropWhile_cons_of_neg hp]

theorem stripL_head? (l : List Char) :
    ∀ x, (stripL l).head? = some x → isWsChar x = false := by
  intro x hx
  rw [stripL, List.head?_reverse] at hx
  have h2 := getLast?_dropWhile isWsChar (l.dropWhile isWsChar).reverse
    (fun y hy => head?_dropWhile_false isWsChar l y
      (by rw [← List.getLast?_reverse]; exact hy))
  rw [h2, List.getLast?_reverse] at hx
  exact head?_dropWhile_false isWsChar l x hx

theorem stripL_getLast? (l : List Char) :
    ∀ x, (stripL l).getLast? = some x → isWsChar x = false := by
  intro x hx
  rw [stripL, List.getLast?_reverse] at hx
  exact head?_dropWhile_false isWsChar _ x hx

theorem stripL_idem (l : List Char) : stripL (stripL l) = stripL l := by
  have h1 : (stripL l).dropWhile isWsChar = stripL l :=
    dropWhile_eq_self_of_head? isWsChar (stripL l) (stripL_head? l)
  have h2 : (stripL l).reverse.dropWhile isWsChar = (stripL l).reverse :=
    dropWhile_eq_self_of_head? isWsChar (stripL l).reverse
      (fun x hx => stripL_getLast? l x (by rw [← List.head?_reverse]; exact hx))
  rw [stripL, h1, h2, List.reverse_reverse]

theorem stripL_map_lower (l : List Char) :
    stripL (l.map lowerChar) = (stripL l).map lowerChar := by
  have hcomp : (isWsChar ∘ lowerChar) = isWsChar := funext isWsChar_lowerChar
  rw [stripL, stripL, List.dropWhile_map, hcomp, ← List.map_reverse,
    List.dropWhile_map, hcomp, ← List.map_reverse]

theorem pyStrip_pyStrip (s : String) : pyStrip (pyStrip s) = pyStrip s := by
  show String.mk (stripL (stripL s.data)) = String.mk (stripL s.data)
  rw [stripL_idem]

theorem pyStrip_pyLower (s : String) : pyStrip (pyLower s) = pyLower (pyStrip s) := by
  show String.mk (stripL (s.data.map lowerChar)) = String.mk ((stripL s.data).map lowerChar)
  rw [stripL_map_lower]

theorem pyLower_pyLower (s : String) : pyLower (pyLower s) = pyLower s := by
  show String.mk ((s.data.map lowerChar).map lowerChar) = String.mk (s.data.map lowerChar)
  rw [List.map_map]
  congr 1
  exact List.map_congr_left (fun c _ => lowerChar_idem c)

/-- The normalized form is a fixed point of strip-then-lower, so
`_normalize_address` is idempotent: re-normalizing an already normalized
address succeeds and returns it unchanged. -/
theorem normalize_address_idem {address norm : String}
    (h : _normalize_address address = .ok norm) :
    _normalize_address norm = .ok norm := by
  unfold _normalize_address at h ⊢
  by_cases hpre : pyStartsWith (pyLower (pyStrip address)) "0x" = true
  · rw [if_pos hpre] at h
    have hn : norm = pyLower (pyStrip address) := by
      injection h with h'
      exact h'.symm
    have hfix : pyLower (pyStrip norm) = norm := by
      rw [hn, pyStrip_pyLower, pyStrip_pyStrip, pyLower_pyLower]
    rw [hfix, if_pos (show pyStartsWith norm "0x" = true by rw [hn]; exact hpre)]
  · rw [if_neg hpre] at h
    exact absurd h (by simp)


set_option maxHeartbeats 1000000

theorem etherscan_request_frame {env : Env} {action : String} {chainId : Nat}
    {address apiKey : String} {st : St}
    {r : Except Err (List (String × Json))} {st' : St}
    (h : _etherscan_request env action chainId address apiKey st = (r, st')) :
    ∃ callsNew, st' = { st with calls := callsNew } := by
  unfold _etherscan_request at h
  split at h
  · cases h
    exact ⟨st.calls, rfl⟩
  · simp only [] at h
    split at h
    · cases h
      exact ⟨_, rfl⟩
    · cases h
      exact ⟨_, rfl⟩

theorem write_cache_frame {env : Env} {chainId : Nat}
    {originalAddress : String} {abiPayload : Json} {abiTargetAddress : String}
    {isProxy : Bool} {implementation abiNameHint : Option String}
    {source : String} {st : St} {r : Except Err String} {st' : St}
    (h : _write_address_cache env chainId originalAddress abiPayload
      abiTargetAddress isProxy implementation abiNameHint source st = (r, st')) :
    ∃ fsNew, st' = { st with fs := fsNew } := by
  unfold _write_address_cache at h
  repeat' first
    | split at h
    | (simp only [] at h; split at h)
  all_goals cases h
  all_goals exact ⟨_, rfl⟩

theorem resolve_fetch_frame {env : Env} {chainId : Nat} {originalAddress : String}
    {abiNameHint : Option String} {st : St} {r : Except Err String} {st' : St}
    (h : _resolve_fetch env chainId originalAddress abiNameHint st = (r, st')) :
    ∃ callsNew fsNew, st' = { st with calls := callsNew, fs := fsNew } := by
  unfold _resolve_fetch at h
  split at h
  · cases h
    exact ⟨st.calls, st.fs, rfl⟩
  · split at h
    · cases h
      exact ⟨st.calls, st.fs, rfl⟩
    · split at h
      · rename_i e st1 heq1
        cases h
        obtain ⟨c1, rfl⟩ := etherscan_request_frame heq1
        exact ⟨_, _, rfl⟩
      · rename_i sourceData st1 heq1
        split at h
        · cases h
          obtain ⟨c1, rfl⟩ := etherscan_request_frame heq1
          exact ⟨_, _, rfl⟩
        · simp only [] at h
          split at h
          · cases h
            obtain ⟨c1, rfl⟩ := etherscan_request_frame heq1
            exact ⟨_, _, rfl⟩
          · split at h
            · rename_i e st2 heq2
              cases h
              obtain ⟨c2, rfl⟩ := etherscan_request_frame heq2
              obtain ⟨c1, rfl⟩ := etherscan_request_frame heq1
              exact ⟨_, _, rfl⟩
            · rename_i abiData st2 heq2
              try simp only [] at h
              split at h
              · split at h
                · split at h
                  · cases h
                    obtain ⟨c2, rfl⟩ := etherscan_request_frame heq2
                    obtain ⟨c1, rfl⟩ := etherscan_request_frame heq1
                    exact ⟨_, _, rfl⟩
                  · split at h
                    · cases h
                      obtain ⟨c2, rfl⟩ := etherscan_request_frame heq2
                      obtain ⟨c1, rfl⟩ := etherscan_request_frame heq1
                      exact ⟨_, _, rfl⟩
                    · obtain ⟨fsN, rfl⟩ := write_cache_frame h
                      obtain ⟨c2, rfl⟩ := etherscan_request_frame heq2
                      obtain ⟨c1, rfl⟩ := etherscan_request_frame heq1
                      exact ⟨_, _, rfl⟩
                · cases h
                  obtain ⟨c2, rfl⟩ := etherscan_request_frame heq2
                  obtain ⟨c1, rfl⟩ := etherscan_request_frame heq1
                  exact ⟨_, _, rfl⟩
              · cases h
                obtain ⟨c2, rfl⟩ := etherscan_request_frame heq2
                obtain ⟨c1, rfl⟩ := etherscan_request_frame heq1
                exact ⟨_, _, rfl⟩

/-- C1: a remote fetch is attempted at most once per key per process.
After any run of the guarded fetch (success or failure, in any
environment) the key is in the fetch-attempted set — it is recorded
before the remote call begins and never removed; and whenever the key is
already in the set, any later resolution reaching the fetch path fails
with `repeatedFetchAttempt` with the state unchanged, so zero additional
remote calls are issued. -/
theorem fetch_attempted_at_most_once (env : Env) (chainId : Nat) (address : String)
    (abiNameHint : Option String) (st : St) (norm : String)
    (hnorm : _normalize_address address = .ok norm) :
    ((chainId, norm) ∈
        (_resolve_via_etherscan env chainId address abiNameHint st).2.fetchOnce)
    ∧ ((chainId, norm) ∈ st.fetchOnce →
        _resolve_via_etherscan env chainId address abiNameHint st
          = (.error (.repeatedFetchAttempt chainId address), st)) := by
  unfold _resolve_via_etherscan
  rw [hnorm]
  simp only []
  constructor
  · by_cases hm : (chainId, norm) ∈ st.fetchOnce
    · rw [if_pos hm]
      exact hm
    · rw [if_neg hm]
      rcases hres : _resolve_fetch env chainId address abiNameHint
          { st with fetchOnce := (chainId, norm) :: st.fetchOnce } with ⟨res, st2⟩
      obtain ⟨cN, fN, hst⟩ := resolve_fetch_frame hres
      rw [hst]
      exact List.mem_cons_self _ _
  · intro hm
    rw [if_pos hm]

theorem address_abi_path_of_norm {address norm : String} (chainId : Nat)
    (h : _normalize_address address = .ok norm) :
    _address_abi_path chainId address = .ok (addressAbiPathStr chainId norm) := by
  unfold _address_abi_path
  rw [h]
  rfl

theorem address_meta_path_of_norm {address norm : String} (chainId : Nat)
    (h : _normalize_address address = .ok norm) :
    _address_meta_path chainId address = .ok (addressMetaPathStr chainId norm) := by
  unfold _address_meta_path
  rw [h]
  rfl

/-- C5: a memory file-path cache hit returns immediately with the state
untouched, and an on-disk cache hit returns the address-keyed path after
registering it in the memory cache; in both cases no Etherscan request
is issued (the call log — indeed the whole rest of the state — is
unchanged), so the remote-fetch branch is unreachable. -/
theorem cache_hit_no_remote_call (env : Env) (chainId : Nat) (address : String)
    (abiNameHint : Option String) (st : St) (norm : String)
    (hnorm : _normalize_address address = .ok norm) :
    (∀ p, assocFind st.fileCache (chainId, norm) = some p →
        resolve_abi_file_for_address env chainId address abiNameHint st = (.ok p, st))
    ∧ (assocFind st.fileCache (chainId, norm) = none →
        ∀ j, assocFind st.fs (addressAbiPathStr chainId norm) = some j →
        resolve_abi_file_for_address env chainId address abiNameHint st =
          (.ok (addressAbiPathStr chainId norm),
            { st with fileCache :=
                ((chainId, norm), addressAbiPathStr chainId norm) :: st.fileCache })) := by
  constructor
  · intro p hp
    unfold resolve_abi_file_for_address
    rw [hnorm]
    simp only []
    rw [hp]
  · intro hnone j hj
    unfold resolve_abi_file_for_address
    rw [hnorm]
    simp only []
    rw [hnone, address_abi_path_of_norm chainId (normalize_address_idem hnorm)]
    simp only []
    rw [hj]
    simp only [Option.isSome, if_pos]

theorem tryNameHint_none {env : Env} {chainId : Nat} {normalized hint : String}
    {st : St} {cands : List String}
    (h : ∀ c ∈ cands, assocFind st.fs c = none) :
    tryNameHint env chainId normalized hint st cands = none := by
  induction cands with
  | nil => rfl
  | cons c rest ih =>
    unfold tryNameHint
    rw [h c (List.mem_cons_self c rest)]
    simp only [Option.isSome, Bool.false_eq_true, if_false]
    exact ih (fun x hx => h x (List.mem_cons_of_mem c hx))

/-- C6: with no memory or disk cache entry, no (usable) name hint file,
a fresh fetch-once key and no configured API key, resolution fails with
`missingCredential`; the only state change is that the key has been
recorded in the fetch-attempted set — in particular the call log is
unchanged, so no network request was issued. -/
theorem missing_credential_no_network (env : Env) (chainId : Nat) (address : String)
    (abiNameHint : Option String) (st : St) (norm : String)
    (hnorm : _normalize_address address = .ok norm)
    (hkey : env.apiKeyVar = none ∨ env.apiKeyVar = some "")
    (hmem : assocFind st.fileCache (chainId, norm) = none)
    (hdisk : assocFind st.fs (addressAbiPathStr chainId norm) = none)
    (hhint : abiNameHint = none ∨ abiNameHint = some "" ∨
      (∀ hint, abiNameHint = some hint →
        ∀ c ∈ nameHintCandidates hint, assocFind st.fs c = none))
    (hfresh : (chainId, norm) ∉ st.fetchOnce) :
    resolve_abi_file_for_address env chainId address abiNameHint st =
      (.error .missingCredential,
        { st with fetchOnce := (chainId, norm) :: st.fetchOnce }) := by
  have hfetch : _resolve_via_etherscan env chainId norm abiNameHint st =
      (.error .missingCredential,
        { st with fetchOnce := (chainId, norm) :: st.fetchOnce }) := by
    unfold _resolve_via_etherscan
    rw [normalize_address_idem hnorm]
    simp only []
    rw [if_neg hfresh]
    unfold _resolve_fetch
    rcases hkey with hk | hk
    · rw [hk]
    · rw [hk]
      simp only [if_pos]
  unfold resolve_abi_file_for_address
  rw [hnorm]
  simp only []
  rw [hmem, address_abi_path_of_norm chainId (normalize_address_idem hnorm)]
  simp only []
  rw [hdisk]
  simp only [Option.isSome, Bool.false_eq_true, if_false]
  have hhint' : nameHintStep env chainId norm abiNameHint st = none := by
    unfold nameHintStep
    rcases hhint with hh | hh | hh
    · subst hh
      rfl
    · subst hh
      rfl
    · cases abiNameHint with
      | none => rfl
      | some hint =>
        by_cases hempty : hint = ""
        · subst hempty
          rfl
        · simp only [if_neg hempty]
          exact tryNameHint_none (hh hint rfl)
  rw [hhint']
  simp only []
  rw [hfetch]

/-- C8: `_normalize_address` trims and lowercases; it accepts exactly
the inputs whose trimmed lowercased form starts with `0x` (with no
further validation — any length is accepted) and rejects the rest with
`invalidAddress`. -/
theorem normalize_address_spec :
    _normalize_address " 0xABC" = .ok "0xabc"
    ∧ _normalize_address "ABC" = .error (.invalidAddress "abc")
    ∧ (∀ s, pyStartsWith (pyLower (pyStrip s)) "0x" = true →
        _normalize_address s = .ok (pyLower (pyStrip s)))
    ∧ (∀ s, pyStartsWith (pyLower (pyStrip s)) "0x" = false →
        _normalize_address s = .error (.invalidAddress (pyLower (pyStrip s)))) := by
  refine ⟨rfl, rfl, ?_, ?_⟩
  · intro s h
    unfold _normalize_address
    simp only [h, if_pos]
  · intro s h
    unfold _normalize_address
    simp only [h, Bool.false_eq_true, if_false]

theorem read_ok_wellformed {path : String} {st : St} {j : Json} {st' : St}
    (h : _read_abi_file path st = (.ok j, st')) : wellformedPayload j = true := by
  unfold _read_abi_file at h
  repeat' split at h
  all_goals cases h
  · rfl
  · rename_i hsome
    simpa [wellformedPayload] using hsome

/-- C10: reading a cached ABI file accepts exactly two shapes — a bare
sequence (wrapped under the descriptor key) or an object already
carrying the descriptor key (returned unchanged) — and fails with
`unexpectedPayloadFormat` on every other parsed shape; consequently
(given that the descriptor memory cache only holds such objects) every
successful `resolve_abi_by_address` result is an object with an `"abi"`
field. -/
theorem read_abi_shapes (st : St) :
    (∀ path xs, assocFind st.fs path = some (.arr xs) →
        _read_abi_file path st = (.ok (.obj [("abi", .arr xs)]), st))
    ∧ (∀ path fields, assocFind st.fs path = some (.obj fields) →
        (assocFind fields "abi").isSome = true →
        _read_abi_file path st = (.ok (.obj fields), st))
    ∧ (∀ path j, assocFind st.fs path = some j → wellformedAbiFile j = false →
        _read_abi_file path st = (.error (.unexpectedPayloadFormat path), st))
    ∧ (∀ env chainId address abiNameHint payload st',
        abiCacheWellformed st →
        resolve_abi_by_address env chainId address abiNameHint st = (.ok payload, st') →
        wellformedPayload payload = true) := by
  refine ⟨?_, ?_, ?_, ?_⟩
  · intro path xs h
    unfold _read_abi_file
    rw [h]
  · intro path fields h habi
    unfold _read_abi_file
    rw [h]
    simp only [habi, if_pos]
  · intro path j h hbad
    unfold _read_abi_file
    rw [h]
    cases j with
    | arr xs => exact absurd hbad (by simp [wellformedAbiFile])
    | obj fields =>
        simp only [wellformedAbiFile] at hbad
        simp only [hbad, Bool.false_eq_true, if_false]
    | null => rfl
    | bool b => rfl
    | num n => rfl
    | str s => rfl
  · intro env chainId address abiNameHint payload st' hwf h
    unfold resolve_abi_by_address at h
    split at h
    · cases h
    · rename_i norm hnorm
      split at h
      · rename_i cached hcached
        cases h
        exact hwf _ _ hcached
      · split at h
        · cases h
        · rename_i abiFile st1 hfile
          split at h
          · cases h
          · rename_i payload2 st2 hread
            cases h
            exact read_ok_wellformed hread

theorem write_cache_success {env : Env} {chainId : Nat} {originalAddress norm : String}
    {abiTargetAddress tnorm : String} {implementation : Option String}
    {implNorm : Option String} (abiPayload : Json) (isProxy : Bool)
    (abiNameHint : Option String) (source : String) (st : St)
    (horig : _normalize_address originalAddress = .ok norm)
    (htarget : _normalize_address abiTargetAddress = .ok tnorm)
    (himpl : normalizeOptImpl implementation = .ok implNorm) :
    _write_address_cache env chainId originalAddress abiPayload abiTargetAddress
        isProxy implementation abiNameHint source st =
      (.ok (addressAbiPathStr chainId norm),
        { st with fs :=
            (addressMetaPathStr chainId norm,
              cacheMetadata env chainId norm tnorm isProxy implNorm abiNameHint
                source (canonicalJson abiPayload)) ::
            (addressAbiPathStr chainId norm, abiPayload) :: st.fs }) := by
  unfold _write_address_cache
  rw [address_abi_path_of_norm chainId horig, address_meta_path_of_norm chainId horig]
  simp only [horig, htarget, himpl]

theorem metaPath_ne_abiPath (chainId : Nat) (a : String) :
    addressMetaPathStr chainId a ≠ addressAbiPathStr chainId a := by
  intro h
  have h2 := congrArg String.length h
  rw [addressMetaPathStr, addressAbiPathStr] at h2
  simp only [String.length_append] at h2
  have e1 : String.length ".meta.json" = 10 := rfl
  have e2 : String.length ".json" = 5 := rfl
  omega


theorem assocFind_cons_eq {α β : Type} [DecidableEq α] (k : α) (v : β)
    (rest : List (α × β)) : assocFind ((k, v) :: rest) k = some v := by
  unfold assocFind
  rw [if_pos rfl]

theorem assocFind_cons_ne {α β : Type} [DecidableEq α] {k' k : α} (v : β)
    (rest : List (α × β)) (h : k' ≠ k) :
    assocFind ((k', v) :: rest) k = assocFind rest k := by
  conv_lhs => unfold assocFind
  rw [if_neg h]

/-- C4: for every cache entry written, the stored `abiSha256` is the
digest of the canonical serialization of the exact payload persisted to
the ABI file; re-reading that file returns the payload unchanged, so
canonically re-serializing and hashing the read-back value reproduces
the stored digest. -/
theorem digest_consistency (env : Env) (chainId : Nat)
    (originalAddress norm : String) (fields : List (String × Json))
    (abiTargetAddress tnorm : String) (isProxy : Bool)
    (implementation implNorm abiNameHint : Option String) (source : String)
    (st : St) (r : Except Err String) (st' : St)
    (horig : _normalize_address originalAddress = .ok norm)
    (htarget : _normalize_address abiTargetAddress = .ok tnorm)
    (himpl : normalizeOptImpl implementation = .ok implNorm)
    (habi : (assocFind fields "abi").isSome = true)
    (hrun : _write_address_cache env chainId originalAddress (Json.obj fields)
      abiTargetAddress isProxy implementation abiNameHint source st = (r, st')) :
    r = .ok (addressAbiPathStr chainId norm)
    ∧ ∃ metaFields,
        assocFind st'.fs (addressMetaPathStr chainId norm) = some (.obj metaFields)
        ∧ assocFind metaFields "abiSha256" =
            some (.str (env.sha256hex (canonicalJson (Json.obj fields))))
        ∧ _read_abi_file (addressAbiPathStr chainId norm) st' =
            (.ok (.obj fields), st') := by
  rw [write_cache_success (Json.obj fields) isProxy abiNameHint source st
    horig htarget himpl] at hrun
  obtain ⟨hr, hst⟩ := Prod.mk.injEq .. ▸ hrun
  subst hst
  refine ⟨hr.symm,
    cacheMetadataFields env chainId norm tnorm isProxy implNorm abiNameHint
      source (canonicalJson (Json.obj fields)), ?_, ?_, ?_⟩
  · rw [show ({ st with fs := (addressMetaPathStr chainId norm,
        cacheMetadata env chainId norm tnorm isProxy implNorm abiNameHint
          source (canonicalJson (Json.obj fields))) ::
        (addressAbiPathStr chainId norm, Json.obj fields) :: st.fs } : St).fs
      = (addressMetaPathStr chainId norm,
        cacheMetadata env chainId norm tnorm isProxy implNorm abiNameHint
          source (canonicalJson (Json.obj fields))) ::
        (addressAbiPathStr chainId norm, Json.obj fields) :: st.fs from rfl]
    rw [assocFind_cons_eq]
    rfl
  · rfl
  · unfold _read_abi_file
    rw [show ({ st with fs := (addressMetaPathStr chainId norm,
        cacheMetadata env chainId norm tnorm isProxy implNorm abiNameHint
          source (canonicalJson (Json.obj fields))) ::
        (addressAbiPathStr chainId norm, Json.obj fields) :: st.fs } : St).fs
      = (addressMetaPathStr chainId norm,
        cacheMetadata env chainId norm tnorm isProxy implNorm abiNameHint
          source (canonicalJson (Json.obj fields))) ::
        (addressAbiPathStr chainId norm, Json.obj fields) :: st.fs from rfl]
    rw [assocFind_cons_ne _ _ (metaPath_ne_abiPath chainId norm), assocFind_cons_eq]
    simp only [habi, if_pos]

theorem extractImplementation_strip {x : Option Json} {s : String}
    (h : extractImplementation x = .ok (some s)) : pyStrip s = s := by
  unfold extractImplementation at h
  repeat' split at h
  all_goals cases h
  all_goals first
    | exact pyStrip_pyStrip _
    | rfl

theorem normalizeOptImpl_of_fetch {implementation : Option String}
    (hstrip : ∀ s, implementation = some s → pyStrip s = s)
    (hproxy : proxyFlag implementation = true →
      ∃ tnorm, _normalize_address (implementation.getD "") = .ok tnorm) :
    ∃ implNorm, normalizeOptImpl implementation = .ok implNorm := by
  cases implementation with
  | none => exact ⟨none, rfl⟩
  | some s =>
    by_cases hs : s = ""
    · subst hs
      exact ⟨none, rfl⟩
    · by_cases hz : pyLower s = ZERO_ADDRESS
      · have hnorm : _normalize_address s = .ok (pyLower (pyStrip s)) := by
          unfold _normalize_address
          rw [hstrip s rfl, hz, if_pos (by decide)]
        refine ⟨some (pyLower (pyStrip s)), ?_⟩
        unfold normalizeOptImpl
        simp only []
        rw [if_neg hs, hnorm]
        rfl
      · have : proxyFlag (some s) = true := by
          unfold proxyFlag
          simp [hs, hz]
        obtain ⟨tnorm, ht⟩ := hproxy this
        refine ⟨some tnorm, ?_⟩
        unfold normalizeOptImpl
        simp only []
        rw [if_neg hs]
        simp only [Option.getD] at ht
        rw [ht]
        rfl

theorem resolve_fetch_error_fs {env : Env} {chainId : Nat}
    {originalAddress : String} {abiNameHint : Option String} {st : St}
    {e : Err} {st' : St} {norm : String}
    (hnorm : _normalize_address originalAddress = .ok norm)
    (h : _resolve_fetch env chainId originalAddress abiNameHint st = (.error e, st')) :
    st'.fs = st.fs := by
  unfold _resolve_fetch at h
  split at h
  · cases h
    rfl
  · split at h
    · cases h
      rfl
    · split at h
      · rename_i e1 st1 heq1
        cases h
        obtain ⟨c1, rfl⟩ := etherscan_request_frame heq1
        rfl
      · rename_i sourceData st1 heq1
        split at h
        · cases h
          obtain ⟨c1, rfl⟩ := etherscan_request_frame heq1
          rfl
        · rename_i implementation heqExtract
          simp only [] at h
          split at h
          · cases h
            obtain ⟨c1, rfl⟩ := etherscan_request_frame heq1
            rfl
          · rename_i u heqProxy
            split at h
            · rename_i e2 st2 heq2
              cases h
              obtain ⟨c2, rfl⟩ := etherscan_request_frame heq2
              obtain ⟨c1, rfl⟩ := etherscan_request_frame heq1
              rfl
            · rename_i abiData st2 heq2
              have hstrip : ∀ s, implementation = some s → pyStrip s = s := by
                intro s hs
                rw [hs] at heqExtract
                exact extractImplementation_strip heqExtract
              have hproxyEx : proxyFlag implementation = true →
                  ∃ tnorm, _normalize_address (implementation.getD "") = .ok tnorm := by
                intro hp
                simp only [if_pos hp] at heqProxy
                cases hx : _normalize_address (implementation.getD "") with
                | error e3 =>
                    rw [hx] at heqProxy
                    simp [Except.map] at heqProxy
                | ok t => exact ⟨t, rfl⟩
              obtain ⟨implNorm, himpl⟩ := normalizeOptImpl_of_fetch hstrip hproxyEx
              have htargetEx : ∃ tnorm, _normalize_address
                  (if proxyFlag implementation = true then implementation.getD ""
                   else originalAddress) = .ok tnorm := by
                by_cases hp : proxyFlag implementation = true
                · obtain ⟨t, ht⟩ := hproxyEx hp
                  exact ⟨t, by rw [if_pos hp]; exact ht⟩
                · exact ⟨norm, by rw [if_neg hp]; exact hnorm⟩
              obtain ⟨tnorm, htg⟩ := htargetEx
              try simp only [] at h
              split at h
              · split at h
                · split at h
                  · cases h
                    obtain ⟨c2, rfl⟩ := etherscan_request_frame heq2
                    obtain ⟨c1, rfl⟩ := etherscan_request_frame heq1
                    rfl
                  · split at h
                    · cases h
                      obtain ⟨c2, rfl⟩ := etherscan_request_frame heq2
                      obtain ⟨c1, rfl⟩ := etherscan_request_frame heq1
                      rfl
                    · rw [write_cache_success _ (proxyFlag implementation)
                        abiNameHint "etherscan" st2 hnorm htg himpl] at h
                      exact absurd (congrArg Prod.fst h) (by simp)
                · cases h
                  obtain ⟨c2, rfl⟩ := etherscan_request_frame heq2
                  obtain ⟨c1, rfl⟩ := etherscan_request_frame heq1
                  rfl
              · cases h
                obtain ⟨c2, rfl⟩ := etherscan_request_frame heq2
                obtain ⟨c1, rfl⟩ := etherscan_request_frame heq1
                rfl

/-- C9: whenever the guarded remote fetch fails — repeated attempt,
missing credential, transport failure, bad status, unparseable or empty
descriptor — the cache directory is left exactly as it was: neither the
ABI file nor the metadata sidecar is written.  (Both files are written
only on the all-successful path.) -/
theorem failed_fetch_writes_nothing (env : Env) (chainId : Nat)
    (originalAddress : String) (abiNameHint : Option String) (st : St)
    (e : Err) (st' : St)
    (h : _resolve_via_etherscan env chainId originalAddress abiNameHint st =
      (.error e, st')) :
    st'.fs = st.fs := by
  unfold _resolve_via_etherscan at h
  split at h
  · cases h
    rfl
  · rename_i norm hnorm
    split at h
    · cases h
      rfl
    · exact @resolve_fetch_error_fs env chainId originalAddress abiNameHint
        { st with fetchOnce := (chainId, norm) :: st.fetchOnce } e st' norm hnorm h

theorem resolve_fetch_success_meta {env : Env} {chainId : Nat}
    {originalAddress : String} {abiNameHint : Option String} {st : St}
    {abiPath : String} {st' : St} {norm : String}
    (hnorm : _normalize_address originalAddress = .ok norm)
    (h : _resolve_fetch env chainId originalAddress abiNameHint st =
      (.ok abiPath, st')) :
    abiPath = addressAbiPathStr chainId norm
    ∧ ∃ tnorm isProxy implNorm digestInput,
        assocFind st'.fs (addressMetaPathStr chainId norm) =
          some (cacheMetadata env chainId norm tnorm isProxy implNorm
            abiNameHint "etherscan" digestInput) := by
  unfold _resolve_fetch at h
  split at h
  · simp at h
  · split at h
    · simp at h
    · split at h
      · simp at h
      · rename_i sourceData st1 heq1
        split at h
        · simp at h
        · rename_i implementation heqExtract
          simp only [] at h
          split at h
          · simp at h
          · rename_i u heqProxy
            split at h
            · simp at h
            · rename_i abiData st2 heq2
              have hstrip : ∀ s, implementation = some s → pyStrip s = s := by
                intro s hs
                rw [hs] at heqExtract
                exact extractImplementation_strip heqExtract
              have hproxyEx : proxyFlag implementation = true →
                  ∃ tnorm, _normalize_address (implementation.getD "") = .ok tnorm := by
                intro hp
                simp only [if_pos hp] at heqProxy
                cases hx : _normalize_address (implementation.getD "") with
                | error e3 =>
                    rw [hx] at heqProxy
                    simp [Except.map] at heqProxy
                | ok t => exact ⟨t, rfl⟩
              obtain ⟨implNorm, himpl⟩ := normalizeOptImpl_of_fetch hstrip hproxyEx
              have htargetEx : ∃ tnorm, _normalize_address
                  (if proxyFlag implementation = true then implementation.getD ""
                   else originalAddress) = .ok tnorm := by
                by_cases hp : proxyFlag implementation = true
                · obtain ⟨t, ht⟩ := hproxyEx hp
                  exact ⟨t, by rw [if_pos hp]; exact ht⟩
                · exact ⟨norm, by rw [if_neg hp]; exact hnorm⟩
              obtain ⟨tnorm, htg⟩ := htargetEx
              try simp only [] at h
              split at h
              · split at h
                · split at h
                  · simp at h
                  · split at h
                    · simp at h
                    · rename_i abi heqParse hfalsy
                      rw [write_cache_success _ (proxyFlag implementation)
                        abiNameHint "etherscan" st2 hnorm htg himpl] at h
                      have hpath := congrArg Prod.fst h
                      have hstate := congrArg Prod.snd h
                      simp only [] at hpath hstate
                      refine ⟨(Except.ok.inj hpath).symm,
                        tnorm, proxyFlag implementation, implNorm,
                        canonicalJson (Json.obj [("abi", abi)]), ?_⟩
                      rw [← hstate]
                      exact assocFind_cons_eq _ _ _
                · simp at h
              · simp at h

/-- C3 (amended): the metadata sidecar of a successful remote fetch
contains exactly the nine fields of §6 in order; its `address` is the
normalized input address, its `fetchedAt` the clock string, and its
`source` is the string `"etherscan"` (the code's tag for a remote fetch
— not `"remote"` as the spec sentence claims). -/
theorem metadata_fields_exact (env : Env) (chainId : Nat)
    (originalAddress : String) (abiNameHint : Option String) (st : St)
    (abiPath : String) (st' : St) (norm : String)
    (hnorm : _normalize_address originalAddress = .ok norm)
    (hrun : _resolve_via_etherscan env chainId originalAddress abiNameHint st =
      (.ok abiPath, st')) :
    abiPath = addressAbiPathStr chainId norm
    ∧ ∃ tnorm isProxy implNorm digestInput,
        assocFind st'.fs (addressMetaPathStr chainId norm) =
          some (Json.obj
            [("chainId", .num chainId),
             ("address", .str norm),
             ("abiTargetAddress", .str tnorm),
             ("isProxy", .bool isProxy),
             ("implementation", optStrJson implNorm),
             ("abiNameHint", optStrJson abiNameHint),
             ("source", .str "etherscan"),
             ("fetchedAt", .str env.nowIso),
             ("abiSha256", .str (env.sha256hex digestInput))]) := by
  unfold _resolve_via_etherscan at hrun
  rw [hnorm] at hrun
  simp only [] at hrun
  split at hrun
  · simp at hrun
  · obtain ⟨h1, tnorm, isProxy, implNorm, digestInput, h2⟩ :=
      resolve_fetch_success_meta hnorm hrun
    exact ⟨h1, tnorm, isProxy, implNorm, digestInput, h2⟩

/-- C3 counterexample: on a concrete successful remote fetch the
metadata's `source` field is the string `"etherscan"`, not `"remote"`
as the claim states. -/
theorem metadata_source_not_remote :
    metaSourceField (_resolve_via_etherscan fixtureEnv 1 "0xaaaa" none emptySt).2
        1 "0xaaaa" = some (.str "etherscan")
    ∧ metaSourceField (_resolve_via_etherscan fixtureEnv 1 "0xaaaa" none emptySt).2
        1 "0xaaaa" ≠ some (.str "remote") := by
  constructor
  · rfl
  · intro hc
    rw [show metaSourceField
        (_resolve_via_etherscan fixtureEnv 1 "0xaaaa" none emptySt).2 1 "0xaaaa"
      = some (Json.str "etherscan") from rfl] at hc
    injection hc with h1
    injection h1 with h2
    exact absurd h2 (by decide)

theorem normalize_ok_inv {s norm : String}
    (h : _normalize_address s = .ok norm) :
    pyLower (pyStrip s) = norm ∧ pyStartsWith norm "0x" = true := by
  unfold _normalize_address at h
  by_cases hp : pyStartsWith (pyLower (pyStrip s)) "0x" = true
  · rw [if_pos hp] at h
    have he := Except.ok.inj h
    exact ⟨he, he ▸ hp⟩
  · rw [if_neg hp] at h
    cases h

theorem proxy_scenario_run (env : Env) (st : St) (chainId : Nat)
    (address norm k : String) (src : List (String × Json))
    (f1 : List (String × Json)) (rest : List Json) (I : String)
    (abiData : List (String × Json)) (abiStr : String) (abi : Json)
    (abiNameHint : Option String)
    (hnorm : _normalize_address address = .ok norm)
    (hfresh : (chainId, norm) ∉ st.fetchOnce)
    (hkey : env.apiKeyVar = some k) (hk : ¬k = "")
    (hsrc : env.remote ⟨"getsourcecode", chainId, norm, k⟩ = .ok src)
    (hres : assocFind src "result" = some (.arr (Json.obj f1 :: rest)))
    (hfield : assocFind f1 "Implementation" = some (.str I))
    (hstrip : pyStrip I = I)
    (hInorm : _normalize_address I = .ok I)
    (hIne : ¬I = "") (hIz : ¬I = ZERO_ADDRESS)
    (habi : env.remote ⟨"getabi", chainId, I, k⟩ = .ok abiData)
    (hstatus : assocFind abiData "status" = some (.str "1"))
    (hresult : assocFind abiData "result" = some (.str abiStr))
    (hparse : env.jsonLoads abiStr = some abi)
    (hne : abi.isFalsy = false) :
    _resolve_via_etherscan env chainId address abiNameHint st =
      (.ok (addressAbiPathStr chainId norm),
        { st with
            fetchOnce := (chainId, norm) :: st.fetchOnce,
            calls := ⟨"getabi", chainId, I, k⟩ ::
              ⟨"getsourcecode", chainId, norm, k⟩ :: st.calls,
            fs := (addressMetaPathStr chainId norm,
                cacheMetadata env chainId norm I true (some I) abiNameHint
                  "etherscan" (canonicalJson (Json.obj [("abi", abi)]))) ::
              (addressAbiPathStr chainId norm, Json.obj [("abi", abi)]) :: st.fs }) := by
  have hlow : pyLower I = I := by
    have hi := (normalize_ok_inv hInorm).1
    rw [hstrip] at hi
    exact hi
  have hextract : extractImplementation (assocFind src "result") = .ok (some I) := by
    rw [hres]
    unfold extractImplementation
    simp only []
    rw [hfield]
    simp only [Json.isFalsy]
    rw [show (I == "") = false from beq_eq_false_iff_ne.mpr hIne]
    simp only [Bool.false_eq_true, if_false]
    rw [hstrip]
  have hflag : proxyFlag (some I) = true := by
    unfold proxyFlag
    simp [hIne, hlow, hIz]
  have himplN : normalizeOptImpl (some I) = .ok (some I) := by
    unfold normalizeOptImpl
    simp only []
    rw [if_neg hIne, hInorm]
    rfl
  unfold _resolve_via_etherscan
  rw [hnorm]
  simp only []
  rw [if_neg hfresh]
  unfold _resolve_fetch
  rw [hkey]
  simp only []
  rw [if_neg hk]
  unfold _etherscan_request
  rw [hnorm]
  simp only [hsrc]
  rw [hextract]
  simp only [hflag, if_pos, Option.getD]
  rw [hInorm]
  simp only [Except.map]
  simp only [habi]
  rw [hstatus, hresult]
  simp only [pyStr]
  simp only [if_true]
  rw [hparse]
  simp only [hne, Bool.false_eq_true, if_false]
  rw [write_cache_success (Json.obj [("abi", abi)]) true abiNameHint
    "etherscan" _ hnorm hInorm himplN]

theorem nonproxy_scenario_run (env : Env) (st : St) (chainId : Nat)
    (address norm k : String) (src : List (String × Json))
    (implementation : Option String)
    (abiData : List (String × Json)) (abiStr : String) (abi : Json)
    (abiNameHint : Option String)
    (hnorm : _normalize_address address = .ok norm)
    (hfresh : (chainId, norm) ∉ st.fetchOnce)
    (hkey : env.apiKeyVar = some k) (hk : ¬k = "")
    (hsrc : env.remote ⟨"getsourcecode", chainId, norm, k⟩ = .ok src)
    (hextract : extractImplementation (assocFind src "result") = .ok implementation)
    (hflag : proxyFlag implementation = false)
    (habi : env.remote ⟨"getabi", chainId, norm, k⟩ = .ok abiData)
    (hstatus : assocFind abiData "status" = some (.str "1"))
    (hresult : assocFind abiData "result" = some (.str abiStr))
    (hparse : env.jsonLoads abiStr = some abi)
    (hne : abi.isFalsy = false) :
    ∃ implNorm,
      _resolve_via_etherscan env chainId address abiNameHint st =
        (.ok (addressAbiPathStr chainId norm),
          { st with
              fetchOnce := (chainId, norm) :: st.fetchOnce,
              calls := ⟨"getabi", chainId, norm, k⟩ ::
                ⟨"getsourcecode", chainId, norm, k⟩ :: st.calls,
              fs := (addressMetaPathStr chainId norm,
                  cacheMetadata env chainId norm norm false implNorm abiNameHint
                    "etherscan" (canonicalJson (Json.obj [("abi", abi)]))) ::
                (addressAbiPathStr chainId norm, Json.obj [("abi", abi)]) :: st.fs }) := by
  have hstrip : ∀ s, implementation = some s → pyStrip s = s := by
    intro s hs
    rw [hs] at hextract
    exact extractImplementation_strip hextract
  obtain ⟨implNorm, himplN⟩ := normalizeOptImpl_of_fetch hstrip
    (fun hp => absurd hp (by rw [hflag]; exact Bool.false_ne_true))
  refine ⟨implNorm, ?_⟩
  unfold _resolve_via_etherscan
  rw [hnorm]
  simp only []
  rw [if_neg hfresh]
  unfold _resolve_fetch
  rw [hkey]
  simp only []
  rw [if_neg hk]
  unfold _etherscan_request
  rw [hnorm]
  simp only [hsrc]
  rw [hextract]
  simp only [hflag, Bool.false_eq_true, if_false]
  simp only [hnorm, habi]
  rw [hstatus, hresult]
  simp only [pyStr]
  simp only [if_true]
  rw [hparse]
  simp only [hne, Bool.false_eq_true, if_false]
  rw [write_cache_success (Json.obj [("abi", abi)]) false abiNameHint
    "etherscan" _ hnorm hnorm himplN]

/-- C2: in the proxy scenario — `getsourcecode` answers with a
non-empty implementation address `I` (trimmed, normalized, different
from the zero address) — the resolver issues `getabi` for `I`, writes
the ABI file keyed under the *original* address, and the metadata
records `isProxy = true` and `implementation = I`; otherwise (the
extracted implementation is not a proxy pointer) `getabi` is issued for
the original (normalized) address and the metadata records
`isProxy = false`. -/
theorem proxy_resolution_behaviour :
    (∀ (env : Env) (st : St) (chainId : Nat) (address norm k : String)
        (src f1 : List (String × Json)) (rest : List Json) (I : String)
        (abiData : List (String × Json)) (abiStr : String) (abi : Json)
        (abiNameHint : Option String),
      _normalize_address address = .ok norm →
      (chainId, norm) ∉ st.fetchOnce →
      env.apiKeyVar = some k → ¬k = "" →
      env.remote ⟨"getsourcecode", chainId, norm, k⟩ = .ok src →
      assocFind src "result" = some (.arr (Json.obj f1 :: rest)) →
      assocFind f1 "Implementation" = some (.str I) →
      pyStrip I = I → _normalize_address I = .ok I →
      ¬I = "" → ¬I = ZERO_ADDRESS →
      env.remote ⟨"getabi", chainId, I, k⟩ = .ok abiData →
      assocFind abiData "status" = some (.str "1") →
      assocFind abiData "result" = some (.str abiStr) →
      env.jsonLoads abiStr = some abi → abi.isFalsy = false →
      ∃ st',
        _resolve_via_etherscan env chainId address abiNameHint st =
          (.ok (addressAbiPathStr chainId norm), st')
        ∧ (⟨"getabi", chainId, I, k⟩ : RemoteCall) ∈ st'.calls
        ∧ assocFind st'.fs (addressAbiPathStr chainId norm) =
            some (Json.obj [("abi", abi)])
        ∧ assocFind st'.fs (addressMetaPathStr chainId norm) =
            some (cacheMetadata env chainId norm I true (some I) abiNameHint
              "etherscan" (canonicalJson (Json.obj [("abi", abi)])))
        ∧ assocFind (cacheMetadataFields env chainId norm I true (some I)
            abiNameHint "etherscan" (canonicalJson (Json.obj [("abi", abi)])))
            "isProxy" = some (.bool true)
        ∧ assocFind (cacheMetadataFields env chainId norm I true (some I)
            abiNameHint "etherscan" (canonicalJson (Json.obj [("abi", abi)])))
            "implementation" = some (.str I))
    ∧ (∀ (env : Env) (st : St) (chainId : Nat) (address norm k : String)
        (src : List (String × Json)) (implementation : Option String)
        (abiData : List (String × Json)) (abiStr : String) (abi : Json)
        (abiNameHint : Option String),
      _normalize_address address = .ok norm →
      (chainId, norm) ∉ st.fetchOnce →
      env.apiKeyVar = some k → ¬k = "" →
      env.remote ⟨"getsourcecode", chainId, norm, k⟩ = .ok src →
      extractImplementation (assocFind src "result") = .ok implementation →
      proxyFlag implementation = false →
      env.remote ⟨"getabi", chainId, norm, k⟩ = .ok abiData →
      assocFind abiData "status" = some (.str "1") →
      assocFind abiData "result" = some (.str abiStr) →
      env.jsonLoads abiStr = some abi → abi.isFalsy = false →
      ∃ implNorm st',
        _resolve_via_etherscan env chainId address abiNameHint st =
          (.ok (addressAbiPathStr chainId norm), st')
        ∧ (⟨"getabi", chainId, norm, k⟩ : RemoteCall) ∈ st'.calls
        ∧ assocFind st'.fs (addressAbiPathStr chainId norm) =
            some (Json.obj [("abi", abi)])
        ∧ assocFind st'.fs (addressMetaPathStr chainId norm) =
            some (cacheMetadata env chainId norm norm false implNorm abiNameHint
              "etherscan" (canonicalJson (Json.obj [("abi", abi)])))
        ∧ assocFind (cacheMetadataFields env chainId norm norm false implNorm
            abiNameHint "etherscan" (canonicalJson (Json.obj [("abi", abi)])))
            "isProxy" = some (.bool false)) := by
  constructor
  · intro env st chainId address norm k src f1 rest I abiData abiStr abi
      abiNameHint hnorm hfresh hkey hk hsrc hres hfield hstrip hInorm hIne hIz
      habi hstatus hresult hparse hne
    have hrun := proxy_scenario_run env st chainId address norm k src f1 rest I
      abiData abiStr abi abiNameHint hnorm hfresh hkey hk hsrc hres hfield
      hstrip hInorm hIne hIz habi hstatus hresult hparse hne
    refine ⟨_, hrun, ?_, ?_, ?_, ?_, ?_⟩
    · exact List.mem_cons_self _ _
    · rw [assocFind_cons_ne _ _ (metaPath_ne_abiPath chainId norm)]
      exact assocFind_cons_eq _ _ _
    · exact assocFind_cons_eq _ _ _
    · rfl
    · rfl
  · intro env st chainId address norm k src implementation abiData abiStr abi
      abiNameHint hnorm hfresh hkey hk hsrc hextract hflag habi hstatus hresult
      hparse hne
    obtain ⟨implNorm, hrun⟩ := nonproxy_scenario_run env st chainId address
      norm k src implementation abiData abiStr abi abiNameHint hnorm hfresh
      hkey hk hsrc hextract hflag habi hstatus hresult hparse hne
    refine ⟨implNorm, _, hrun, ?_, ?_, ?_, ?_⟩
    · exact List.mem_cons_self _ _
    · rw [assocFind_cons_ne _ _ (metaPath_ne_abiPath chainId norm)]
      exact assocFind_cons_eq _ _ _
    · exact assocFind_cons_eq _ _ _
    · rfl

theorem pruneCalls_eq_dropWhile (cfg : RateLimiterCfg) (now : ℚ) (l : List ℚ) :
    pruneCalls cfg now l =
      l.dropWhile (fun c => decide (cfg.period_seconds ≤ now - c)) := by
  induction l with
  | nil => rfl
  | cons c rest ih =>
    unfold pruneCalls
    rw [List.dropWhile_cons]
    by_cases h : cfg.period_seconds ≤ now - c
    · simp [h, ih]
    · simp [h]

theorem calls_split_prune (cfg : RateLimiterCfg) (now : ℚ) (l : List ℚ) :
    l = l.takeWhile (fun c => decide (cfg.period_seconds ≤ now - c)) ++
      pruneCalls cfg now l := by
  rw [pruneCalls_eq_dropWhile, List.takeWhile_append_dropWhile]

theorem inWindow_false_of_old (cfg : RateLimiterCfg) {u t d : ℚ}
    (hexp : cfg.period_seconds ≤ t - d) (hwin : t ≤ u + cfg.period_seconds) :
    inWindow cfg u d = false := by
  unfold inWindow
  rw [decide_eq_false_iff_not]
  intro hcon
  obtain ⟨h1, h2⟩ := hcon
  linarith

theorem runAttempts_cons_grant (cfg : RateLimiterCfg) (t : ℚ)
    (rest calls : List ℚ)
    (h : (pruneCalls cfg t calls).length < cfg.max_calls) :
    runAttempts cfg (t :: rest) calls =
      (t :: (runAttempts cfg rest (pruneCalls cfg t calls ++ [t])).1,
       (runAttempts cfg rest (pruneCalls cfg t calls ++ [t])).2) := by
  conv_lhs => unfold runAttempts
  unfold acquireCheck
  dsimp only
  rw [if_pos h]
  simp

theorem runAttempts_cons_deny (cfg : RateLimiterCfg) (t : ℚ)
    (rest calls : List ℚ)
    (h : ¬(pruneCalls cfg t calls).length < cfg.max_calls) :
    runAttempts cfg (t :: rest) calls =
      ((runAttempts cfg rest (pruneCalls cfg t calls)).1,
       (runAttempts cfg rest (pruneCalls cfg t calls)).2) := by
  conv_lhs => unfold runAttempts
  unfold acquireCheck
  dsimp only
  rw [if_neg h]
  simp

theorem runAttempts_window_invariant (cfg : RateLimiterCfg) (attempts : List ℚ)
    (prevSucc dropped calls : List ℚ)
    (hsorted : attempts.Pairwise (· ≤ ·))
    (hsplit : prevSucc = dropped ++ calls)
    (hdropped : ∀ d ∈ dropped, ∀ t ∈ attempts, cfg.period_seconds ≤ t - d)
    (hcount : ∀ u, (prevSucc.filter (inWindow cfg u)).length ≤ cfg.max_calls) :
    ∀ u, ((prevSucc ++ (runAttempts cfg attempts calls).1).filter
        (inWindow cfg u)).length ≤ cfg.max_calls := by
  induction attempts generalizing prevSucc dropped calls with
  | nil =>
    intro u
    simpa using hcount u
  | cons t rest ih =>
    obtain ⟨hle, hsorted'⟩ := List.pairwise_cons.mp hsorted
    have hpre : ∀ d ∈ calls.takeWhile
        (fun c => decide (cfg.period_seconds ≤ t - c)),
        cfg.period_seconds ≤ t - d := by
      intro d hd
      have h0 := List.mem_takeWhile_imp hd
      exact of_decide_eq_true h0
    have hdropped' : ∀ d ∈ dropped ++ calls.takeWhile
        (fun c => decide (cfg.period_seconds ≤ t - c)),
        ∀ t' ∈ rest, cfg.period_seconds ≤ t' - d := by
      intro d hd t' ht'
      rcases List.mem_append.mp hd with hda | hdb
      · exact hdropped d hda t' (List.mem_cons_of_mem t ht')
      · have h1 := hpre d hdb
        have h2 := hle t' ht'
        linarith
    have hsplit' : prevSucc = (dropped ++ calls.takeWhile
        (fun c => decide (cfg.period_seconds ≤ t - c))) ++ pruneCalls cfg t calls := by
      rw [hsplit]
      conv_lhs => rw [calls_split_prune cfg t calls]
      simp [List.append_assoc]
    have hwindow_old : ∀ u, t ≤ u + cfg.period_seconds →
        (prevSucc.filter (inWindow cfg u)).length ≤
          (pruneCalls cfg t calls).length := by
      intro u hut
      have hfil : prevSucc.filter (inWindow cfg u) =
          (pruneCalls cfg t calls).filter (inWindow cfg u) := by
        rw [hsplit', List.filter_append]
        rw [List.filter_eq_nil_iff.mpr (fun d hd => by
          rcases List.mem_append.mp hd with hda | hdb
          · rw [inWindow_false_of_old cfg
              (hdropped d hda t (List.mem_cons_self t rest)) hut]
            exact Bool.false_ne_true
          · rw [inWindow_false_of_old cfg (hpre d hdb) hut]
            exact Bool.false_ne_true)]
        rfl
      rw [hfil]
      exact List.length_filter_le _ _
    by_cases hlen : (pruneCalls cfg t calls).length < cfg.max_calls
    · rw [runAttempts_cons_grant cfg t rest calls hlen]
      have hassoc : prevSucc ++ (t :: (runAttempts cfg rest
          (pruneCalls cfg t calls ++ [t])).1, (runAttempts cfg rest
          (pruneCalls cfg t calls ++ [t])).2).1 =
          (prevSucc ++ [t]) ++ (runAttempts cfg rest
            (pruneCalls cfg t calls ++ [t])).1 := by
        simp [List.append_assoc]
      rw [hassoc]
      apply ih (prevSucc ++ [t])
        (dropped ++ calls.takeWhile (fun c => decide (cfg.period_seconds ≤ t - c)))
        (pruneCalls cfg t calls ++ [t]) hsorted'
      · rw [hsplit']
        simp [List.append_assoc]
      · exact hdropped'
      · intro u
        rw [List.filter_append]
        by_cases hwin : inWindow cfg u t = true
        · have hut : t ≤ u + cfg.period_seconds :=
            (of_decide_eq_true hwin).2
          have h1 := hwindow_old u hut
          have h2 : ([t].filter (inWindow cfg u)).length = 1 := by
            simp [List.filter, hwin]
          rw [List.length_append, h2]
          omega
        · have h2 : ([t].filter (inWindow cfg u)).length = 0 := by
            simp only [List.filter]
            rw [show inWindow cfg u t = false from Bool.eq_false_iff.mpr hwin]
            rfl
          rw [List.length_append, h2]
          have h3 := hcount u
          omega
    · rw [runAttempts_cons_deny cfg t rest calls hlen]
      apply ih prevSucc
        (dropped ++ calls.takeWhile (fun c => decide (cfg.period_seconds ≤ t - c)))
        (pruneCalls cfg t calls) hsorted' hsplit' hdropped' hcount

/-- C7: under the lock-serialized semantics of `acquire` (every check
runs under the limiter's single lock at a monotone clock reading, and a
blocked caller's retry after sleeping is a later check in the sequence),
the rolling-window ceiling holds: for any sequence of attempts at
nondecreasing times, at most `max_calls` grants lie inside any window
`(u, u + period_seconds]`.  Moreover a caller that finds the deque full
is told to sleep exactly until the oldest retained timestamp exits the
window — `(oldest + period) - now` — after which it re-runs the whole
check (the `while True` loop) rather than assuming a slot freed. -/
theorem rate_limiter_ceiling (cfg : RateLimiterCfg) (attempts : List ℚ)
    (hsorted : attempts.Pairwise (· ≤ ·)) :
    (∀ u, ((runAttempts cfg attempts []).1.filter (inWindow cfg u)).length
        ≤ cfg.max_calls)
    ∧ (∀ now calls, (acquireCheck cfg now calls).granted = false →
        (acquireCheck cfg now calls).sleep_for =
          ((pruneCalls cfg now calls).headD 0 + cfg.period_seconds) - now) := by
  constructor
  · intro u
    have h := runAttempts_window_invariant cfg attempts [] [] [] hsorted rfl
      (fun d hd => absurd hd (List.not_mem_nil d))
      (fun v => Nat.zero_le _) u
    simpa using h
  · intro now calls hfail
    unfold acquireCheck at hfail ⊢
    by_cases hlen : (pruneCalls cfg now calls).length < cfg.max_calls
    · rw [if_pos hlen] at hfail
      simp at hfail
    · rw [if_neg hlen]
      dsimp only
      ring

theorem fetch_attempted_at_most_once_witness :
    _resolve_via_etherscan fixtureEnv 1 "0xaaaa" none
        ⟨[], [], [(1, "0xaaaa")], [], []⟩ =
      (.error (.repeatedFetchAttempt 1 "0xaaaa"),
        ⟨[], [], [(1, "0xaaaa")], [], []⟩) :=
  (fetch_attempted_at_most_once fixtureEnv 1 "0xaaaa" none
      ⟨[], [], [(1, "0xaaaa")], [], []⟩ "0xaaaa" rfl).2
    (List.mem_cons_self _ _)

theorem cache_hit_no_remote_call_witness :
    resolve_abi_file_for_address fixtureEnv 1 "0xaaaa" none
        ⟨[((1, "0xaaaa"), "cached-path")], [], [], [], []⟩ =
      (.ok "cached-path", ⟨[((1, "0xaaaa"), "cached-path")], [], [], [], []⟩) :=
  (cache_hit_no_remote_call fixtureEnv 1 "0xaaaa" none
      ⟨[((1, "0xaaaa"), "cached-path")], [], [], [], []⟩ "0xaaaa" rfl).1
    "cached-path" rfl

theorem missing_credential_no_network_witness :
    resolve_abi_file_for_address fixtureNoKeyEnv 1 "0xaaaa" none emptySt =
      (.error .missingCredential, ⟨[], [], [(1, "0xaaaa")], [], []⟩) :=
  missing_credential_no_network fixtureNoKeyEnv 1 "0xaaaa" none emptySt
    "0xaaaa" rfl (Or.inl rfl) rfl rfl (Or.inl rfl) (List.not_mem_nil _)

theorem normalize_address_spec_witness :
    _normalize_address "0xZZ00" = .ok (pyLower (pyStrip "0xZZ00")) :=
  normalize_address_spec.2.2.1 "0xZZ00" (by decide)

theorem read_abi_shapes_witness :
    _read_abi_file "f.json" ⟨[], [], [], [("f.json", .arr [])], []⟩ =
      (.ok (.obj [("abi", .arr [])]),
        ⟨[], [], [], [("f.json", .arr [])], []⟩) :=
  (read_abi_shapes ⟨[], [], [], [("f.json", .arr [])], []⟩).1 "f.json" [] rfl

theorem rate_limiter_ceiling_witness :
    ((runAttempts ⟨3, 1⟩ [0, 1, 2, 3] []).1.filter
      (inWindow ⟨3, 1⟩ 0)).length ≤ 3 :=
  (rate_limiter_ceiling ⟨3, 1⟩ [0, 1, 2, 3] (by decide)).1 0

theorem failed_fetch_writes_nothing_witness :
    (_resolve_via_etherscan fixtureNoKeyEnv 1 "0xaaaa" none emptySt).2.fs =
      emptySt.fs :=
  failed_fetch_writes_nothing fixtureNoKeyEnv 1 "0xaaaa" none emptySt
    .missingCredential
    (_resolve_via_etherscan fixtureNoKeyEnv 1 "0xaaaa" none emptySt).2 rfl

theorem digest_consistency_witness :
    (_write_address_cache fixtureEnv 1 "0xaaaa"
        (Json.obj [("abi", .arr [])]) "0xaaaa" false none none "etherscan"
        emptySt).1 = .ok (addressAbiPathStr 1 "0xaaaa")
    ∧ ∃ metaFields,
        assocFind (_write_address_cache fixtureEnv 1 "0xaaaa"
            (Json.obj [("abi", .arr [])]) "0xaaaa" false none none "etherscan"
            emptySt).2.fs (addressMetaPathStr 1 "0xaaaa") =
          some (.obj metaFields)
        ∧ assocFind metaFields "abiSha256" =
            some (.str (fixtureEnv.sha256hex
              (canonicalJson (Json.obj [("abi", .arr [])]))))
        ∧ _read_abi_file (addressAbiPathStr 1 "0xaaaa")
            (_write_address_cache fixtureEnv 1 "0xaaaa"
              (Json.obj [("abi", .arr [])]) "0xaaaa" false none none
              "etherscan" emptySt).2 =
          (.ok (.obj [("abi", .arr [])]),
            (_write_address_cache fixtureEnv 1 "0xaaaa"
              (Json.obj [("abi", .arr [])]) "0xaaaa" false none none
              "etherscan" emptySt).2) :=
  digest_consistency fixtureEnv 1 "0xaaaa" "0xaaaa" [("abi", .arr [])]
    "0xaaaa" "0xaaaa" false none none none "etherscan" emptySt
    (_write_address_cache fixtureEnv 1 "0xaaaa" (Json.obj [("abi", .arr [])])
      "0xaaaa" false none none "etherscan" emptySt).1
    (_write_address_cache fixtureEnv 1 "0xaaaa" (Json.obj [("abi", .arr [])])
      "0xaaaa" false none none "etherscan" emptySt).2
    rfl rfl rfl rfl rfl

theorem metadata_fields_exact_witness :
    (addressAbiPathStr 1 "0xaaaa") = addressAbiPathStr 1 "0xaaaa"
    ∧ ∃ tnorm isProxy implNorm digestInput,
        assocFind (_resolve_via_etherscan fixtureEnv 1 "0xaaaa" none
            emptySt).2.fs (addressMetaPathStr 1 "0xaaaa") =
          some (Json.obj
            [("chainId", .num 1),
             ("address", .str "0xaaaa"),
             ("abiTargetAddress", .str tnorm),
             ("isProxy", .bool isProxy),
             ("implementation", optStrJson implNorm),
             ("abiNameHint", optStrJson none),
             ("source", .str "etherscan"),
             ("fetchedAt", .str fixtureEnv.nowIso),
             ("abiSha256", .str (fixtureEnv.sha256hex digestInput))]) :=
  metadata_fields_exact fixtureEnv 1 "0xaaaa" none emptySt
    (addressAbiPathStr 1 "0xaaaa")
    (_resolve_via_etherscan fixtureEnv 1 "0xaaaa" none emptySt).2
    "0xaaaa" rfl rfl

theorem proxy_resolution_behaviour_witness :
    ∃ st',
      _resolve_via_etherscan fixtureProxyEnv 1 "0xaaaa" none emptySt =
        (.ok (addressAbiPathStr 1 "0xaaaa"), st')
      ∧ (⟨"getabi", 1, "0xbbbb", "test-key"⟩ : RemoteCall) ∈ st'.calls
      ∧ assocFind st'.fs (addressAbiPathStr 1 "0xaaaa") =
          some (Json.obj
            [("abi", .arr [Json.obj [("type", .str "function")]])])
      ∧ assocFind st'.fs (addressMetaPathStr 1 "0xaaaa") =
          some (cacheMetadata fixtureProxyEnv 1 "0xaaaa" "0xbbbb" true
            (some "0xbbbb") none "etherscan"
            (canonicalJson (Json.obj
              [("abi", .arr [Json.obj [("type", .str "function")]])])))
      ∧ assocFind (cacheMetadataFields fixtureProxyEnv 1 "0xaaaa" "0xbbbb" true
          (some "0xbbbb") none "etherscan"
          (canonicalJson (Json.obj
            [("abi", .arr [Json.obj [("type", .str "function")]])])))
          "isProxy" = some (.bool true)
      ∧ assocFind (cacheMetadataFields fixtureProxyEnv 1 "0xaaaa" "0xbbbb" true
          (some "0xbbbb") none "etherscan"
          (canonicalJson (Json.obj
            [("abi", .arr [Json.obj [("type", .str "function")]])])))
          "implementation" = some (.str "0xbbbb") :=
  proxy_resolution_behaviour.1 fixtureProxyEnv emptySt 1 "0xaaaa" "0xaaaa"
    "test-key"
    [("status", .str "1"), ("message", .str "OK"),
      ("result", .arr [Json.obj [("Implementation", .str "0xbbbb")]])]
    [("Implementation", .str "0xbbbb")] []
    "0xbbbb"
    [("status", .str "1"), ("message", .str "OK"),
      ("result", .str "descriptor")]
    "descriptor" (.arr [Json.obj [("type", .str "function")]]) none
    rfl (List.not_mem_nil _) rfl (by decide) rfl rfl rfl rfl rfl
    (by decide) (by decide) rfl rfl rfl rfl rfl
